import Mathlib

/-!
Verification of the zag request-authentication core.

The definitions below are a shallow embedding of the signature codec
(`src/packages/auth/src/core.ts`), the key utilities
(`keys.ts`, provided as `src/unnamed/part_005`), the Hono verification
middleware (`src/packages/auth/src/adapters/hono.ts`) and the credential
file-path construction (`src/packages/auth/src/core.ts` `loadAgent`,
`src/packages/auth/src/storage/filesystem.ts`).

JavaScript strings are modelled as Lean `String`, byte buffers as
`List Nat` with every element below 256, and `string | undefined`
parameters as `Option String`.  The Node `crypto` Ed25519 primitive is
external to the repository; it is modelled as a structure
(`Ed25519`) packaging the signing/verification functions together with
the basic shape facts (32-byte raw public keys, byte-valued outputs);
its cryptographic behaviour (honest signatures verify, signatures do
not verify against a different message) is taken as an explicit
hypothesis of the theorems that need it.
-/

set_option maxHeartbeats 1000000

namespace Zag

/-! ## Base64, modelling Node `Buffer.from(_, 'base64')` and `buf.toString('base64')`.
Node's decoder is lenient: characters outside the alphabet (and padding)
are skipped, and a trailing group of 2 or 3 alphabet characters yields 1
or 2 bytes while a lone trailing character is dropped. -/

def b64chars : List Char :=
  "ABCDEFGHIJKLMNOPQRSTUVWXYZabcdefghijklmnopqrstuvwxyz0123456789+/".data

def b64charOf (n : Nat) : Char := b64chars.getD n 'A'

def b64valOf (c : Char) : Option Nat := b64chars.findIdx? (fun x => x == c)

def b64encodeBytes : List Nat → List Char
  | a :: b :: c :: rest =>
      b64charOf (a / 4) :: b64charOf (a % 4 * 16 + b / 16) ::
      b64charOf (b % 16 * 4 + c / 64) :: b64charOf (c % 64) :: b64encodeBytes rest
  | [a, b] => [b64charOf (a / 4), b64charOf (a % 4 * 16 + b / 16), b64charOf (b % 16 * 4), '=']
  | [a] => [b64charOf (a / 4), b64charOf (a % 4 * 16), '=', '=']
  | [] => []

def b64encode (bytes : List Nat) : String := String.mk (b64encodeBytes bytes)

def b64decodeVals : List Nat → List Nat
  | v1 :: v2 :: v3 :: v4 :: rest =>
      (v1 * 4 + v2 / 16) :: (v2 % 16 * 16 + v3 / 4) :: (v3 % 4 * 64 + v4) :: b64decodeVals rest
  | [v1, v2, v3] => [v1 * 4 + v2 / 16, v2 % 16 * 16 + v3 / 4]
  | [v1, v2] => [v1 * 4 + v2 / 16]
  | _ => []

def b64decode (s : String) : List Nat := b64decodeVals (s.data.filterMap b64valOf)

theorem b64valOf_b64charOf : ∀ n : Nat, n < 64 → b64valOf (b64charOf n) = some n := by decide

theorem b64valOf_pad : b64valOf '=' = none := by decide

theorem b64decodeVals_encodeVals : ∀ (bs : List Nat), (∀ x ∈ bs, x < 256) →
    b64decodeVals ((b64encodeBytes bs).filterMap b64valOf) = bs
  | [], _ => rfl
  | [a], h => by
      have ha : a < 256 := h a (by simp)
      have h1 := b64valOf_b64charOf (a / 4) (by omega)
      have h2 := b64valOf_b64charOf (a % 4 * 16) (by omega)
      simp only [b64encodeBytes, List.filterMap_cons, h1, h2, b64valOf_pad, b64decodeVals,
        List.filterMap_nil]
      simp only [List.cons.injEq, and_true]
      omega
  | [a, b], h => by
      have ha : a < 256 := h a (by simp)
      have hb : b < 256 := h b (by simp)
      have h1 := b64valOf_b64charOf (a / 4) (by omega)
      have h2 := b64valOf_b64charOf (a % 4 * 16 + b / 16) (by omega)
      have h3 := b64valOf_b64charOf (b % 16 * 4) (by omega)
      simp only [b64encodeBytes, List.filterMap_cons, h1, h2, h3, b64valOf_pad, b64decodeVals,
        List.filterMap_nil]
      simp only [List.cons.injEq, and_true]
      constructor
      · omega
      · omega
  | a :: b :: c :: rest, h => by
      have ha : a < 256 := h a (by simp)
      have hb : b < 256 := h b (by simp)
      have hc : c < 256 := h c (by simp)
      have h1 := b64valOf_b64charOf (a / 4) (by omega)
      have h2 := b64valOf_b64charOf (a % 4 * 16 + b / 16) (by omega)
      have h3 := b64valOf_b64charOf (b % 16 * 4 + c / 64) (by omega)
      have h4 := b64valOf_b64charOf (c % 64) (by omega)
      have ih := b64decodeVals_encodeVals rest (fun x hx => h x (by simp at hx ⊢; tauto))
      simp only [b64encodeBytes, List.filterMap_cons, h1, h2, h3, h4, b64decodeVals, ih]
      simp only [List.cons.injEq]
      refine ⟨by omega, by omega, by omega, trivial⟩

theorem b64decode_b64encode (bs : List Nat) (h : ∀ x ∈ bs, x < 256) :
    b64decode (b64encode bs) = bs :=
  b64decodeVals_encodeVals bs h

/-! ## Canonical signing string, from `buildSigningString` in
`src/packages/auth/src/core.ts`.  The JS `method.toUpperCase()` is
modelled for ASCII (HTTP methods are ASCII) with `Char.toUpper`;
`parts.join('\n')` is `joinNl`; the optional `body` parameter is
`Option String` and the JS truthiness test `body && body.length > 0`
is `some b` with `b.length > 0`. -/

def toUpperJs (s : String) : String := String.mk (s.data.map Char.toUpper)

def joinNl : List String → String
  | [] => ""
  | [x] => x
  | x :: xs => x ++ "\n" ++ joinNl xs

def buildSigningString (method path timestamp : String) (body : Option String) : String :=
  let parts : List String := [toUpperJs method, path, timestamp]
  let parts : List String :=
    match body with
    | some b => if b.length > 0 then parts ++ [b] else parts
    | none => parts
  joinNl parts

/-- Canonical signing string as the specification words it:
`METHOD\nPATH\nTIMESTAMP[\nBODY]`, newline-joined, the body segment
omitted entirely when the body is empty or absent. -/
def specSigningString (method path timestamp : String) (body : Option String) : String :=
  toUpperJs method ++ "\n" ++ path ++ "\n" ++ timestamp ++
    (match body with
     | some b => if b = "" then "" else "\n" ++ b
     | none => "")

/-! ## The Ed25519 primitive of Node `crypto`, external to the repository.

Byte buffers are `List Nat` (each element < 256).  `sign` and `verify`
operate on the UTF-8 string to be signed, here kept as a `String` since
UTF-8 encoding is a bijection on strings.  The structure records only
shape facts; cryptographic behaviour is hypothesised per theorem. -/

structure Ed25519 where
  PrivKey : Type
  sign : String → PrivKey → List Nat
  rawPub : PrivKey → List Nat
  verify : String → List Nat → List Nat → Bool
  sign_lt : ∀ m k, ∀ x ∈ sign m k, x < 256
  rawPub_length : ∀ k, (rawPub k).length = 32
  rawPub_lt : ∀ k, ∀ x ∈ rawPub k, x < 256

/-- Ed25519 SPKI DER header, `302a300506032b6570032100` in
`src/packages/auth/src/core.ts`. -/
def spkiHeader : List Nat :=
  [0x30, 0x2a, 0x30, 0x05, 0x06, 0x03, 0x2b, 0x65, 0x70, 0x03, 0x21, 0x00]

/-- Model of Node `createPublicKey({key, format:'der', type:'spki'})` for
Ed25519.  Node parses the DER with OpenSSL's `d2i_PUBKEY`, which reads
the leading SPKI structure — the 12-byte Ed25519 header followed by the
32 raw key bytes it declares — and silently ignores any trailing bytes.
Parsing therefore succeeds, yielding the 32 bytes after the header,
whenever the buffer starts with the header and holds at least 32 further
bytes; a shorter (truncated) buffer or a wrong header makes it throw
(`none`). -/
def createPublicKey (der : List Nat) : Option (List Nat) :=
  if 44 ≤ der.length ∧ der.take 12 = spkiHeader then some ((der.drop 12).take 32)
  else none

/-- Wrapper `sign` from `keys.ts` (`src/unnamed/part_005`): Ed25519
signature over the signing string, base64-encoded. -/
def sign (S : Ed25519) (signingString : String) (privateKey : S.PrivKey) : String :=
  b64encode (S.sign signingString privateKey)

/-- Wrapper `exportPublicKey` from `keys.ts` (`src/unnamed/part_005`):
export the SPKI DER, drop the 12-byte header, base64 the raw 32 bytes. -/
def exportPublicKey (S : Ed25519) (privateKey : S.PrivKey) : String :=
  b64encode ((spkiHeader ++ S.rawPub privateKey).drop 12)

/-- Mirror of `VerifyOptions` in `src/packages/auth/src/types.ts`. -/
structure VerifyOptions where
  method : String
  path : String
  timestamp : String
  body : Option String
  signature : String
  publicKey : String

/-- Body of the `try` block of `verify` in `src/packages/auth/src/core.ts`;
`Except.error` marks the places where the Node crypto calls throw. -/
def verifyTry (S : Ed25519) (opts : VerifyOptions) : Except String Bool :=
  let signingString := buildSigningString opts.method opts.path opts.timestamp opts.body
  let signatureBuffer := b64decode opts.signature
  let publicKeyBuffer := b64decode opts.publicKey
  match createPublicKey (spkiHeader ++ publicKeyBuffer) with
  | none => Except.error "createPublicKey"
  | some keyObject => Except.ok (S.verify signingString signatureBuffer keyObject)

/-- The `verify` of `src/packages/auth/src/core.ts`: the `catch` turns
every throw into `false`. -/
def verify (S : Ed25519) (opts : VerifyOptions) : Bool :=
  match verifyTry S opts with
  | Except.ok b => b
  | Except.error _ => false

theorem createPublicKey_spki (pb : List Nat) :
    createPublicKey (spkiHeader ++ pb) =
      if 32 ≤ pb.length then some (pb.take 32) else none := by
  have ht : (spkiHeader ++ pb).take 12 = spkiHeader := List.take_left' rfl
  have hd : (spkiHeader ++ pb).drop 12 = pb := List.drop_left' rfl
  have hl : (spkiHeader ++ pb).length = 12 + pb.length := by
    simp [spkiHeader]; omega
  unfold createPublicKey
  rw [ht, hd, hl]
  by_cases h : 32 ≤ pb.length
  · have h44 : 44 ≤ 12 + pb.length := by omega
    simp [h, h44]
  · have h44 : ¬(44 ≤ 12 + pb.length) := by omega
    simp [h, h44]

theorem exportPublicKey_eq (S : Ed25519) (k : S.PrivKey) :
    exportPublicKey S k = b64encode (S.rawPub k) := by
  have hd : (spkiHeader ++ S.rawPub k).drop 12 = S.rawPub k := List.drop_left' rfl
  unfold exportPublicKey
  rw [hd]

/-- Evaluation of `verify` when both tokens are canonical base64 of
byte buffers and the key buffer holds at least 32 bytes: verification
runs under the 32-byte prefix of the key buffer. -/
theorem verify_eval_take (S : Ed25519) (m p t : String) (b : Option String)
    (sigBytes pubBytes : List Nat)
    (hsig : ∀ x ∈ sigBytes, x < 256) (hpub : ∀ x ∈ pubBytes, x < 256)
    (hlen : 32 ≤ pubBytes.length) :
    verify S ⟨m, p, t, b, b64encode sigBytes, b64encode pubBytes⟩ =
      S.verify (buildSigningString m p t b) sigBytes (pubBytes.take 32) := by
  unfold verify verifyTry
  simp only [b64decode_b64encode sigBytes hsig, b64decode_b64encode pubBytes hpub,
    createPublicKey_spki, hlen, if_true]

/-- Evaluation of `verify` when the key has the exact 32-byte length. -/
theorem verify_eval (S : Ed25519) (m p t : String) (b : Option String)
    (sigBytes pubBytes : List Nat)
    (hsig : ∀ x ∈ sigBytes, x < 256) (hpub : ∀ x ∈ pubBytes, x < 256)
    (hlen : pubBytes.length = 32) :
    verify S ⟨m, p, t, b, b64encode sigBytes, b64encode pubBytes⟩ =
      S.verify (buildSigningString m p t b) sigBytes pubBytes := by
  have htake : pubBytes.take 32 = pubBytes := by
    rw [← hlen]
    exact List.take_length pubBytes
  rw [verify_eval_take S m p t b sigBytes pubBytes hsig hpub (by omega), htake]

/-- Any two argument tuples with the same canonical signing string are
accepted alike: an honest signature for one verifies for the other. -/
theorem verify_of_eq_signingString (S : Ed25519)
    (hvs : ∀ m k, S.verify m (S.sign m k) (S.rawPub k) = true)
    (m p t : String) (b : Option String) (m2 p2 t2 : String) (b2 : Option String)
    (k : S.PrivKey)
    (h : buildSigningString m2 p2 t2 b2 = buildSigningString m p t b) :
    verify S ⟨m2, p2, t2, b2, sign S (buildSigningString m p t b) k,
      exportPublicKey S k⟩ = true := by
  rw [show sign S (buildSigningString m p t b) k =
        b64encode (S.sign (buildSigningString m p t b) k) from rfl,
    exportPublicKey_eq,
    verify_eval S m2 p2 t2 b2 _ _ (S.sign_lt _ _) (S.rawPub_lt k) (S.rawPub_length k),
    h, hvs]

/-! ## Concrete signature schemes used to instantiate witnesses.

`toy` encodes the message injectively into bytes (four base-256 digits
per character) and appends the key byte, so honest signatures verify
and signatures never verify against a different message.  `triv`
rejects everything. -/

def toyEncodeChar (c : Char) : List Nat :=
  [c.toNat / 16777216, c.toNat / 65536 % 256, c.toNat / 256 % 256, c.toNat % 256]

def toyEncodeL : List Char → List Nat
  | [] => []
  | c :: cs => toyEncodeChar c ++ toyEncodeL cs

def toyEncode (s : String) : List Nat := toyEncodeL s.data

def toyDecodeL : List Nat → List Char
  | a :: b :: c :: d :: rest =>
      Char.ofNat (a * 16777216 + b * 65536 + c * 256 + d) :: toyDecodeL rest
  | _ => []

def toySign (s : String) (k : Fin 256) : List Nat := toyEncode s ++ [k.1]

def toyRawPub (k : Fin 256) : List Nat := List.replicate 31 0 ++ [k.1]

def toyVerify (msg : String) (sig pub : List Nat) : Bool :=
  decide (sig = toyEncode msg ++ pub.drop 31)

theorem char_toNat_lt (c : Char) : c.toNat < 4294967296 :=
  c.val.toNat_lt_size

theorem toyEncodeL_lt : ∀ (cs : List Char), ∀ x ∈ toyEncodeL cs, x < 256
  | [], x, hx => by simp [toyEncodeL] at hx
  | c :: cs, x, hx => by
      have hc := char_toNat_lt c
      simp only [toyEncodeL, toyEncodeChar, List.mem_append, List.mem_cons,
        List.not_mem_nil, or_false] at hx
      rcases hx with (h | h | h | h) | h
      · omega
      · omega
      · omega
      · omega
      · exact toyEncodeL_lt cs x h

theorem toyDecodeL_toyEncodeL : ∀ (cs : List Char), toyDecodeL (toyEncodeL cs) = cs
  | [] => rfl
  | c :: cs => by
      have hn : c.toNat / 16777216 * 16777216 + c.toNat / 65536 % 256 * 65536 +
          c.toNat / 256 % 256 * 256 + c.toNat % 256 = c.toNat := by omega
      simp only [toyEncodeL, toyEncodeChar, List.cons_append, List.nil_append, toyDecodeL,
        hn, Char.ofNat_toNat]
      exact congrArg (c :: ·) (toyDecodeL_toyEncodeL cs)

theorem toyEncode_injective {s s2 : String} (h : toyEncode s = toyEncode s2) : s = s2 := by
  apply String.ext
  have h2 := congrArg toyDecodeL h
  simp only [toyEncode] at h2
  rwa [toyDecodeL_toyEncodeL, toyDecodeL_toyEncodeL] at h2

def toy : Ed25519 where
  PrivKey := Fin 256
  sign := toySign
  rawPub := toyRawPub
  verify := toyVerify
  sign_lt := by
    intro m k x hx
    simp only [toySign, List.mem_append, List.mem_cons, List.not_mem_nil, or_false] at hx
    rcases hx with h | h
    · exact toyEncodeL_lt m.data x h
    · omega
  rawPub_length := by intro k; simp [toyRawPub]
  rawPub_lt := by
    intro k x hx
    simp only [toyRawPub, List.mem_append, List.mem_replicate, List.mem_cons,
      List.not_mem_nil, or_false] at hx
    rcases hx with ⟨-, h⟩ | h
    · omega
    · omega

theorem toyRawPub_drop (k : Fin 256) : (toyRawPub k).drop 31 = [k.1] := by
  unfold toyRawPub
  exact List.drop_left' (by simp)

theorem toy_verify_sign : ∀ (m : String) (k : Fin 256),
    toy.verify m (toy.sign m k) (toy.rawPub k) = true := by
  intro m k
  show toyVerify m (toySign m k) (toyRawPub k) = true
  simp [toyVerify, toySign, toyRawPub_drop k]

theorem toy_verify_tamper : ∀ (m m2 : String) (k : Fin 256), m ≠ m2 →
    toy.verify m2 (toy.sign m k) (toy.rawPub k) = false := by
  intro m m2 k hne
  show toyVerify m2 (toySign m k) (toyRawPub k) = false
  simp only [toyVerify, toySign, toyRawPub_drop k, decide_eq_false_iff_not]
  intro heq
  exact hne (toyEncode_injective (List.append_inj' heq rfl).1)

def triv : Ed25519 where
  PrivKey := Unit
  sign := fun _ _ => []
  rawPub := fun _ => List.replicate 32 0
  verify := fun _ _ _ => false
  sign_lt := by intro m k x hx; simp at hx
  rawPub_length := by intro k; simp
  rawPub_lt := by
    intro k x hx
    rw [List.mem_replicate] at hx
    omega

/-! ## Character-level view of the canonical signing string. -/

theorem nl_data : ("\n" : String).data = ['\n'] := rfl

/-- The trailing segment contributed by the body: nothing for an absent
or empty body, a newline plus the body otherwise. -/
def bodyTail : Option String → List Char
  | some s => if s.length > 0 then '\n' :: s.data else []
  | none => []

theorem string_ne_of_data_ne {s s2 : String} (h : s.data ≠ s2.data) : s ≠ s2 :=
  fun he => h (congrArg String.data he)

theorem length_pos_of_ne_empty {s : String} (h : s ≠ "") : 0 < s.length := by
  show 0 < s.data.length
  cases hd : s.data with
  | nil => exact absurd (String.ext hd) h
  | cons c cs => simp

theorem buildSigningString_data (m p t : String) (b : Option String) :
    (buildSigningString m p t b).data =
      (toUpperJs m).data ++ '\n' :: (p.data ++ '\n' :: (t.data ++ bodyTail b)) := by
  cases b with
  | none =>
      simp [buildSigningString, joinNl, bodyTail, String.data_append, nl_data]
  | some s =>
      by_cases hs : s.length > 0
      · simp [buildSigningString, joinNl, bodyTail, hs, String.data_append, nl_data]
      · simp [buildSigningString, joinNl, bodyTail, hs, String.data_append, nl_data]

/-- C4: the canonical signing string is the uppercased method, the path
and the timestamp joined by newlines, with the body as a fourth
newline-separated segment exactly when it is non-empty; `body=""` and
`body` absent yield the identical string `METHOD\nPATH\nTIMESTAMP`, and
signing either yields identical signature tokens. -/
theorem c4_canonical_signing_string (S : Ed25519) (m p t : String) (b : Option String)
    (k : S.PrivKey) :
    buildSigningString m p t b = specSigningString m p t b
    ∧ buildSigningString m p t (some "") = toUpperJs m ++ "\n" ++ p ++ "\n" ++ t
    ∧ buildSigningString m p t none = toUpperJs m ++ "\n" ++ p ++ "\n" ++ t
    ∧ sign S (buildSigningString m p t (some "")) k =
        sign S (buildSigningString m p t none) k := by
  have hplain : ∀ b2, bodyTail b2 = [] →
      buildSigningString m p t b2 = toUpperJs m ++ "\n" ++ p ++ "\n" ++ t := by
    intro b2 hb2
    apply String.ext
    rw [buildSigningString_data, hb2]
    simp [String.data_append, nl_data]
  have hsomeEmpty : bodyTail (some "") = [] := by simp [bodyTail]
  have hnone : bodyTail none = [] := rfl
  refine ⟨?_, hplain (some "") hsomeEmpty, hplain none hnone, ?_⟩
  · apply String.ext
    rw [buildSigningString_data]
    cases b with
    | none => simp [specSigningString, bodyTail, String.data_append, nl_data]
    | some s =>
        by_cases hs : s = ""
        · subst hs
          simp [specSigningString, bodyTail, String.data_append, nl_data]
        · have hl := length_pos_of_ne_empty hs
          simp [specSigningString, bodyTail, hs, hl, String.data_append, nl_data]
  · rw [hplain (some "") hsomeEmpty, hplain none hnone]

/-- C1: signing the canonical signing string and verifying the produced
token against the base64 raw-32-byte export of the matching public key
succeeds, for every method, path, timestamp, optional body and key pair
of a scheme whose honest signatures verify. -/
theorem c1_sign_verify_roundtrip (S : Ed25519)
    (hvs : ∀ m k, S.verify m (S.sign m k) (S.rawPub k) = true)
    (m p t : String) (b : Option String) (k : S.PrivKey) :
    verify S ⟨m, p, t, b, sign S (buildSigningString m p t b) k,
      exportPublicKey S k⟩ = true :=
  verify_of_eq_signingString S hvs m p t b m p t b k rfl

/-- Witness for C1: a concrete request, body present, key byte 7. -/
theorem c1_witness :
    verify toy ⟨"get", "/api/items", "1700000000", some "hello",
      sign toy (buildSigningString "get" "/api/items" "1700000000" (some "hello"))
        ((7 : Fin 256) : toy.PrivKey),
      exportPublicKey toy ((7 : Fin 256) : toy.PrivKey)⟩ = true :=
  c1_sign_verify_roundtrip toy toy_verify_sign "get" "/api/items" "1700000000"
    (some "hello") ((7 : Fin 256) : toy.PrivKey)

/-! ## Tamper sensitivity: which single-field changes alter the
canonical signing string. -/

/-- The body as the signing string sees it: an absent body and an empty
body are the same. -/
def bodyStr : Option String → String
  | some s => s
  | none => ""

theorem bodyTail_eq_of_bodyStr (b : Option String) :
    bodyTail b = if (bodyStr b).length > 0 then '\n' :: (bodyStr b).data else [] := by
  cases b with
  | none => rfl
  | some s => rfl

theorem bodyStr_eq_of_bodyTail_eq {b b2 : Option String}
    (h : bodyTail b2 = bodyTail b) : bodyStr b2 = bodyStr b := by
  rw [bodyTail_eq_of_bodyStr, bodyTail_eq_of_bodyStr] at h
  by_cases h2 : (bodyStr b2).length > 0 <;> by_cases h1 : (bodyStr b).length > 0
  · rw [if_pos h2, if_pos h1] at h
    exact String.ext (by injection h)
  · rw [if_pos h2, if_neg h1] at h
    exact absurd h (by simp)
  · rw [if_neg h2, if_pos h1] at h
    exact absurd h (by simp)
  · apply String.ext
    have e2 : (bodyStr b2).data.length = (bodyStr b2).length := rfl
    have e1 : (bodyStr b).data.length = (bodyStr b).length := rfl
    have z2 : (bodyStr b2).data = [] := List.length_eq_zero.mp (by omega)
    have z1 : (bodyStr b).data = [] := List.length_eq_zero.mp (by omega)
    rw [z1, z2]

/-- Verification fails whenever the verified tuple's signing string
differs from the signed one, for a scheme whose verification rejects
every message other than the signed one. -/
theorem verify_of_ne_signingString (S : Ed25519)
    (ht : ∀ m m2 k, m ≠ m2 → S.verify m2 (S.sign m k) (S.rawPub k) = false)
    (m p t : String) (b : Option String) (m2 p2 t2 : String) (b2 : Option String)
    (k : S.PrivKey)
    (h : buildSigningString m2 p2 t2 b2 ≠ buildSigningString m p t b) :
    verify S ⟨m2, p2, t2, b2, sign S (buildSigningString m p t b) k,
      exportPublicKey S k⟩ = false := by
  rw [show sign S (buildSigningString m p t b) k =
        b64encode (S.sign (buildSigningString m p t b) k) from rfl,
    exportPublicKey_eq,
    verify_eval S m2 p2 t2 b2 _ _ (S.sign_lt _ _) (S.rawPub_lt k) (S.rawPub_length k),
    ht _ _ k (Ne.symm h)]

theorem signingString_ne_of_method (m m2 p t : String) (b : Option String)
    (h : toUpperJs m2 ≠ toUpperJs m) :
    buildSigningString m2 p t b ≠ buildSigningString m p t b := by
  apply string_ne_of_data_ne
  rw [buildSigningString_data, buildSigningString_data]
  intro he
  exact h (String.ext (List.append_cancel_right he))

theorem signingString_ne_of_path (m p p2 t : String) (b : Option String)
    (h : p2 ≠ p) :
    buildSigningString m p2 t b ≠ buildSigningString m p t b := by
  apply string_ne_of_data_ne
  rw [buildSigningString_data, buildSigningString_data]
  intro he
  have h1 := List.append_cancel_left he
  have h2 : p2.data ++ '\n' :: (t.data ++ bodyTail b) =
      p.data ++ '\n' :: (t.data ++ bodyTail b) := by injection h1
  exact h (String.ext (List.append_cancel_right h2))

theorem signingString_ne_of_timestamp (m p t t2 : String) (b : Option String)
    (h : t2 ≠ t) :
    buildSigningString m p t2 b ≠ buildSigningString m p t b := by
  apply string_ne_of_data_ne
  rw [buildSigningString_data, buildSigningString_data]
  intro he
  have h1 := List.append_cancel_left he
  have h2 : p.data ++ '\n' :: (t2.data ++ bodyTail b) =
      p.data ++ '\n' :: (t.data ++ bodyTail b) := by injection h1
  have h3 := List.append_cancel_left h2
  have h4 : t2.data ++ bodyTail b = t.data ++ bodyTail b := by injection h3
  exact h (String.ext (List.append_cancel_right h4))

theorem signingString_ne_of_body (m p t : String) (b b2 : Option String)
    (h : bodyStr b2 ≠ bodyStr b) :
    buildSigningString m p t b2 ≠ buildSigningString m p t b := by
  apply string_ne_of_data_ne
  rw [buildSigningString_data, buildSigningString_data]
  intro he
  have h1 := List.append_cancel_left he
  have h2 : p.data ++ '\n' :: (t.data ++ bodyTail b2) =
      p.data ++ '\n' :: (t.data ++ bodyTail b) := by injection h1
  have h3 := List.append_cancel_left h2
  have h4 : t.data ++ bodyTail b2 = t.data ++ bodyTail b := by injection h3
  exact h (bodyStr_eq_of_bodyTail_eq (List.append_cancel_left h4))

/-- Counterexample to C3 as stated: the tuple with method `"GET"`
differs from the signed tuple (method `"get"`) in exactly the method
field, yet the original signature still verifies, because
`buildSigningString` uppercases the method. -/
theorem c3_counterexample :
    ("GET" : String) ≠ "get"
    ∧ verify toy ⟨"GET", "/api/items", "1700000000", none,
        sign toy (buildSigningString "get" "/api/items" "1700000000" none)
          ((7 : Fin 256) : toy.PrivKey),
        exportPublicKey toy ((7 : Fin 256) : toy.PrivKey)⟩ = true := by
  refine ⟨by decide, ?_⟩
  exact verify_of_eq_signingString toy toy_verify_sign "get" "/api/items" "1700000000" none
    "GET" "/api/items" "1700000000" none ((7 : Fin 256) : toy.PrivKey) (by decide)

/-- C3 amended: after signing `(method, path, timestamp, body)`,
verification of the original signature returns false for every change
of exactly one field that alters the canonical signing string: any
change of path; any change of timestamp; a method change whose
uppercasing differs; a body change whose empty-normalized value differs
(changing the method only in letter case, or toggling the body between
empty and absent, leaves the signing string and hence the verdict
unchanged).  Stated for every scheme whose verification rejects any
message other than the signed one. -/
theorem c3_tamper_sensitivity_amended (S : Ed25519)
    (ht : ∀ m m2 k, m ≠ m2 → S.verify m2 (S.sign m k) (S.rawPub k) = false)
    (m p t : String) (b : Option String) (k : S.PrivKey) :
    (∀ m2, toUpperJs m2 ≠ toUpperJs m →
      verify S ⟨m2, p, t, b, sign S (buildSigningString m p t b) k,
        exportPublicKey S k⟩ = false)
    ∧ (∀ p2, p2 ≠ p →
      verify S ⟨m, p2, t, b, sign S (buildSigningString m p t b) k,
        exportPublicKey S k⟩ = false)
    ∧ (∀ t2, t2 ≠ t →
      verify S ⟨m, p, t2, b, sign S (buildSigningString m p t b) k,
        exportPublicKey S k⟩ = false)
    ∧ (∀ b2, bodyStr b2 ≠ bodyStr b →
      verify S ⟨m, p, t, b2, sign S (buildSigningString m p t b) k,
        exportPublicKey S k⟩ = false) := by
  refine ⟨fun m2 h => ?_, fun p2 h => ?_, fun t2 h => ?_, fun b2 h => ?_⟩
  · exact verify_of_ne_signingString S ht m p t b m2 p t b k
      (signingString_ne_of_method m m2 p t b h)
  · exact verify_of_ne_signingString S ht m p t b m p2 t b k
      (signingString_ne_of_path m p p2 t b h)
  · exact verify_of_ne_signingString S ht m p t b m p t2 b k
      (signingString_ne_of_timestamp m p t t2 b h)
  · exact verify_of_ne_signingString S ht m p t b m p t b2 k
      (signingString_ne_of_body m p t b b2 h)

/-- Witness for the amended C3: concrete tampering with each of the
four fields of a signed request flips verification to false. -/
theorem c3_witness :
    verify toy ⟨"POST", "/api/items", "1700000000", some "x",
      sign toy (buildSigningString "GET" "/api/items" "1700000000" (some "x"))
        ((7 : Fin 256) : toy.PrivKey),
      exportPublicKey toy ((7 : Fin 256) : toy.PrivKey)⟩ = false
    ∧ verify toy ⟨"GET", "/other", "1700000000", some "x",
      sign toy (buildSigningString "GET" "/api/items" "1700000000" (some "x"))
        ((7 : Fin 256) : toy.PrivKey),
      exportPublicKey toy ((7 : Fin 256) : toy.PrivKey)⟩ = false
    ∧ verify toy ⟨"GET", "/api/items", "1700000001", some "x",
      sign toy (buildSigningString "GET" "/api/items" "1700000000" (some "x"))
        ((7 : Fin 256) : toy.PrivKey),
      exportPublicKey toy ((7 : Fin 256) : toy.PrivKey)⟩ = false
    ∧ verify toy ⟨"GET", "/api/items", "1700000000", some "y",
      sign toy (buildSigningString "GET" "/api/items" "1700000000" (some "x"))
        ((7 : Fin 256) : toy.PrivKey),
      exportPublicKey toy ((7 : Fin 256) : toy.PrivKey)⟩ = false := by
  refine ⟨?_, ?_, ?_, ?_⟩
  · exact (c3_tamper_sensitivity_amended toy toy_verify_tamper "GET" "/api/items"
      "1700000000" (some "x") ((7 : Fin 256) : toy.PrivKey)).1 "POST" (by decide)
  · exact (c3_tamper_sensitivity_amended toy toy_verify_tamper "GET" "/api/items"
      "1700000000" (some "x") ((7 : Fin 256) : toy.PrivKey)).2.1 "/other" (by decide)
  · exact (c3_tamper_sensitivity_amended toy toy_verify_tamper "GET" "/api/items"
      "1700000000" (some "x") ((7 : Fin 256) : toy.PrivKey)).2.2.1 "1700000001" (by decide)
  · exact (c3_tamper_sensitivity_amended toy toy_verify_tamper "GET" "/api/items"
      "1700000000" (some "x") ((7 : Fin 256) : toy.PrivKey)).2.2.2 (some "y") (by decide)

/-- C8: `buildSigningString` is not injective: a timestamp smuggling a
newline and the trailing text, with no body, collides with the plain
timestamp carrying that text as the body, and a signature produced for
the first tuple verifies for the second. -/
theorem c8_signing_collision :
    buildSigningString "GET" "/api/items" "1700000000\nx" none =
      buildSigningString "GET" "/api/items" "1700000000" (some "x")
    ∧ (("1700000000\nx" : String), (none : Option String)) ≠ ("1700000000", some "x")
    ∧ verify toy ⟨"GET", "/api/items", "1700000000", some "x",
        sign toy (buildSigningString "GET" "/api/items" "1700000000\nx" none)
          ((7 : Fin 256) : toy.PrivKey),
        exportPublicKey toy ((7 : Fin 256) : toy.PrivKey)⟩ = true := by
  refine ⟨by decide, by decide, ?_⟩
  exact verify_of_eq_signingString toy toy_verify_sign "GET" "/api/items" "1700000000\nx" none
    "GET" "/api/items" "1700000000" (some "x") ((7 : Fin 256) : toy.PrivKey) (by decide)

/-! ## Fail-closed behaviour of `verify`. -/

/-- Counterexample to C2 as stated: a public key of the wrong length
does not always make `verify` return false.  A base64 token decoding to
36 bytes — the registered 32-byte raw key followed by four trailing
bytes — is not a decode failure in the program: Node's DER parser
ignores the trailing bytes, verification runs under the 32-byte prefix,
and a signature valid under that key verifies as `true`. -/
theorem c2_overlength_key_counterexample :
    (b64decode (b64encode (toyRawPub 7 ++ [1, 2, 3, 4]))).length ≠ 32
    ∧ verify toy ⟨"GET", "/a", "100", none,
        sign toy (buildSigningString "GET" "/a" "100" none) ((7 : Fin 256) : toy.PrivKey),
        b64encode (toyRawPub 7 ++ [1, 2, 3, 4])⟩ = true := by
  constructor
  · decide
  · have hpub : ∀ x ∈ toyRawPub 7 ++ [1, 2, 3, 4], x < 256 := by decide
    rw [show sign toy (buildSigningString "GET" "/a" "100" none)
          ((7 : Fin 256) : toy.PrivKey) =
        b64encode (toy.sign (buildSigningString "GET" "/a" "100" none)
          ((7 : Fin 256) : toy.PrivKey)) from rfl,
      verify_eval_take toy "GET" "/a" "100" none _ _ (toy.sign_lt _ _) hpub (by decide),
      List.take_left' (by decide)]
    exact toy_verify_sign _ _

/-- C2 amended: `verify` is a total boolean function — the `catch` maps
every throw of the try block to `false`; a truncated public key (base64
decoding to fewer than 32 bytes, which fails DER parsing) makes it
return false, and — since Ed25519 verification rejects any signature
buffer that is not exactly 64 bytes — a signature token whose lenient
base64 decoding has the wrong length also makes it return false.  (An
over-length public key is not a failure: the DER parser drops the
trailing bytes and verification proceeds under the 32-byte prefix, as
the counterexample shows.) -/
theorem c2_fail_closed (S : Ed25519) (opts : VerifyOptions) :
    (∀ e, verifyTry S opts = Except.error e → verify S opts = false)
    ∧ ((b64decode opts.publicKey).length < 32 → verify S opts = false)
    ∧ ((∀ m sig pk, sig.length ≠ 64 → S.verify m sig pk = false) →
        (b64decode opts.signature).length ≠ 64 → verify S opts = false) := by
  refine ⟨fun e he => ?_, fun h => ?_, fun hlen hslen => ?_⟩
  · unfold verify
    rw [he]
  · have h32 : ¬(32 ≤ (b64decode opts.publicKey).length) := by omega
    unfold verify verifyTry
    simp only [createPublicKey_spki, h32, if_false]
  · unfold verify verifyTry
    simp only [createPublicKey_spki]
    by_cases hp : 32 ≤ (b64decode opts.publicKey).length
    · simp only [hp, if_true]
      exact hlen _ _ _ hslen
    · simp only [hp, if_false]

/-- Witness for C2: a 2-byte public key is rejected, and a
non-base64 signature token decoding to 6 bytes is rejected. -/
theorem c2_witness :
    verify triv ⟨"GET", "/a", "100", none, "AAAA", "AAA"⟩ = false
    ∧ verify triv ⟨"GET", "/a", "100", none, "!!notbase64",
        b64encode (List.replicate 32 0)⟩ = false := by
  constructor
  · exact (c2_fail_closed triv ⟨"GET", "/a", "100", none, "AAAA", "AAA"⟩).2.1 (by decide)
  · exact (c2_fail_closed triv ⟨"GET", "/a", "100", none, "!!notbase64",
      b64encode (List.replicate 32 0)⟩).2.2 (fun m sig pk h => rfl) (by decide)

/-! ## The Hono verification middleware
(`src/packages/auth/src/adapters/hono.ts`).

Headers are `Option String` (`c.req.header` returns `undefined` when
absent); the JS truthiness check `!agentId || ...` is `jsFalsy`.
`parseInt(timestamp, 10)` is `jsParseInt` (`none` is `NaN`).  The
filesystem lookup `loadAgent(agentId, keysDir)` is abstracted as
`store : String → Option AgentRegistration`; since `loadAgent` does
`JSON.parse` with an unchecked cast, the record's `status` is an
arbitrary string at runtime.  The middleware's five `c.json(error,
status)` responses and the success path are the `AuthResult` values. -/

/-- Model of JS `parseInt(s, 10)`: skip leading whitespace, optional
sign, then the longest prefix of decimal digits; `none` (`NaN`) when
that prefix is empty.  Trailing garbage is ignored. -/
def digitsVal (cs : List Char) : Nat :=
  cs.foldl (fun acc c => acc * 10 + (c.toNat - 48)) 0

def jsParseInt (s : String) : Option Int :=
  match s.data.dropWhile (fun c => c.isWhitespace) with
  | '-' :: rest =>
      let ds := rest.takeWhile (fun c => c.isDigit)
      if ds = [] then none else some (-(digitsVal ds : Int))
  | '+' :: rest =>
      let ds := rest.takeWhile (fun c => c.isDigit)
      if ds = [] then none else some ((digitsVal ds : Int))
  | rest =>
      let ds := rest.takeWhile (fun c => c.isDigit)
      if ds = [] then none else some ((digitsVal ds : Int))

/-- Mirror of `AgentRegistration` in `src/packages/auth/src/types.ts`;
`status` is `'active' | 'revoked'` in the TS type but reaches the
middleware through an unvalidated `JSON.parse`, hence `String`. -/
structure AgentRegistration where
  agent_id : String
  public_key : String
  name : Option String
  registered_at : String
  status : String

/-- Outcome of the middleware: one of the five `c.json({error}, status)`
rejections, or success (the request proceeds with `agentId` set). -/
inductive AuthResult where
  | reject (status : Nat) (error : String)
  | success (agentId : String)
  deriving DecidableEq

/-- The inbound request as the middleware reads it: the three
authentication headers, the method, the URL pathname, and the body
text that `c.req.text()` would return. -/
structure HonoRequest where
  headerAgentId : Option String
  headerTimestamp : Option String
  headerSignature : Option String
  method : String
  path : String
  bodyText : String

/-- JS falsiness of `string | undefined`: `undefined` and `""`. -/
def jsFalsy : Option String → Bool
  | none => true
  | some s => decide (s = "")

/-- The middleware `zagAuth` of `src/packages/auth/src/adapters/hono.ts`,
as a function of the abstracted store, the configured drift, the
current time `Math.floor(Date.now() / 1000)`, and the request. -/
def zagAuth (S : Ed25519) (store : String → Option AgentRegistration)
    (maxTimestampDrift : Int) (now : Int) (req : HonoRequest) : AuthResult :=
  if jsFalsy req.headerAgentId || jsFalsy req.headerTimestamp ||
      jsFalsy req.headerSignature then
    AuthResult.reject 401 "Missing authentication headers"
  else
    let agentId := req.headerAgentId.getD ""
    let timestamp := req.headerTimestamp.getD ""
    let signature := req.headerSignature.getD ""
    let requestTime := jsParseInt timestamp
    if requestTime.isNone ||
        requestTime.any (fun rt => decide (|now - rt| > maxTimestampDrift)) then
      AuthResult.reject 401 "Request timestamp out of allowed window"
    else
      match store agentId with
      | none => AuthResult.reject 401 "Agent not found"
      | some agent =>
        if agent.status ≠ "active" then
          AuthResult.reject 403 "Agent is not active"
        else
          let body := if req.method ≠ "GET" ∧ req.method ≠ "HEAD" then
            some req.bodyText else none
          if verify S ⟨req.method, req.path, timestamp, body, signature,
              agent.public_key⟩ then
            AuthResult.success agentId
          else
            AuthResult.reject 401 "Invalid signature"

/-- Evaluation of the middleware once the three headers are present and
non-empty. -/
theorem zagAuth_headers (S : Ed25519) (store : String → Option AgentRegistration)
    (maxDrift now : Int) (a t s method path bodyText : String)
    (ha : a ≠ "") (hts : t ≠ "") (hs : s ≠ "") :
    zagAuth S store maxDrift now ⟨some a, some t, some s, method, path, bodyText⟩ =
      if (jsParseInt t).isNone ||
          (jsParseInt t).any (fun rt => decide (|now - rt| > maxDrift)) then
        AuthResult.reject 401 "Request timestamp out of allowed window"
      else
        match store a with
        | none => AuthResult.reject 401 "Agent not found"
        | some agent =>
          if agent.status ≠ "active" then
            AuthResult.reject 403 "Agent is not active"
          else
            let body := if method ≠ "GET" ∧ method ≠ "HEAD" then
              some bodyText else none
            if verify S ⟨method, path, t, body, s, agent.public_key⟩ then
              AuthResult.success a
            else
              AuthResult.reject 401 "Invalid signature" := by
  unfold zagAuth
  simp only [jsFalsy, ha, hts, hs, decide_False, Bool.or_self, Bool.false_or,
    Bool.or_false, if_false, Option.getD_some]
  rfl

/-- Evaluation of the middleware past the timestamp stage: parseable
timestamp inside the drift window. -/
theorem zagAuth_after_timestamp (S : Ed25519)
    (store : String → Option AgentRegistration)
    (maxDrift now : Int) (a t s method path bodyText : String)
    (ha : a ≠ "") (hts : t ≠ "") (hs : s ≠ "")
    (rt : Int) (hp : jsParseInt t = some rt) (hw : ¬(|now - rt| > maxDrift)) :
    zagAuth S store maxDrift now ⟨some a, some t, some s, method, path, bodyText⟩ =
      match store a with
      | none => AuthResult.reject 401 "Agent not found"
      | some agent =>
        if agent.status ≠ "active" then
          AuthResult.reject 403 "Agent is not active"
        else
          let body := if method ≠ "GET" ∧ method ≠ "HEAD" then
            some bodyText else none
          if verify S ⟨method, path, t, body, s, agent.public_key⟩ then
            AuthResult.success a
          else
            AuthResult.reject 401 "Invalid signature" := by
  rw [zagAuth_headers S store maxDrift now a t s method path bodyText ha hts hs]
  simp only [hp, Option.isNone_some, Option.any_some, hw, decide_False,
    Bool.or_self, Bool.false_or, Bool.or_false, if_false]
  rfl

/-- C5: with the three headers present and the timestamp parsing to
`rt`, the middleware answers the timestamp-out-of-window rejection
exactly when `|now - rt| > maxDrift`; in particular `rt` exactly at
`now - maxDrift` or `now + maxDrift` passes the replay check (for a
nonnegative configured drift), while `now - maxDrift - 1` and
`now + maxDrift + 1` are rejected. -/
theorem c5_replay_window_boundary (S : Ed25519)
    (store : String → Option AgentRegistration)
    (maxDrift now : Int) (a t s method path bodyText : String)
    (ha : a ≠ "") (hts : t ≠ "") (hs : s ≠ "")
    (hmd : 0 ≤ maxDrift) (rt : Int) (hp : jsParseInt t = some rt) :
    (zagAuth S store maxDrift now ⟨some a, some t, some s, method, path, bodyText⟩ =
        AuthResult.reject 401 "Request timestamp out of allowed window"
      ↔ |now - rt| > maxDrift)
    ∧ (rt = now - maxDrift ∨ rt = now + maxDrift →
      zagAuth S store maxDrift now ⟨some a, some t, some s, method, path, bodyText⟩ ≠
        AuthResult.reject 401 "Request timestamp out of allowed window")
    ∧ (rt = now - maxDrift - 1 ∨ rt = now + maxDrift + 1 →
      zagAuth S store maxDrift now ⟨some a, some t, some s, method, path, bodyText⟩ =
        AuthResult.reject 401 "Request timestamp out of allowed window") := by
  have hiff : zagAuth S store maxDrift now
      ⟨some a, some t, some s, method, path, bodyText⟩ =
        AuthResult.reject 401 "Request timestamp out of allowed window"
      ↔ |now - rt| > maxDrift := by
    rw [zagAuth_headers S store maxDrift now a t s method path bodyText ha hts hs]
    simp only [hp, Option.isNone_some, Option.any_some, Bool.false_or]
    by_cases hd : |now - rt| > maxDrift
    · simp [hd]
    · simp only [hd, decide_False, iff_false]
      rcases hstore : store a with _ | agent
      · simp
      · by_cases hact : agent.status ≠ "active"
        · simp [hact]
        · simp only [hact, if_false, Bool.false_eq_true]
          cases hv : verify S ⟨method, path, t,
              if method ≠ "GET" ∧ method ≠ "HEAD" then some bodyText else none, s,
              agent.public_key⟩ <;> simp [hv]
  refine ⟨hiff, fun hb => ?_, fun hb => ?_⟩
  · rw [Ne, hiff, gt_iff_lt, lt_abs]
    rcases hb with h | h <;> subst h <;> omega
  · rw [hiff, gt_iff_lt, lt_abs]
    rcases hb with h | h <;> subst h <;> omega

/-- Witness for C5: drift 30, current time 1000; timestamp 970 (the
exact lower boundary) is not rejected by the replay check, timestamp
969 is. -/
theorem c5_witness :
    zagAuth triv (fun _ => none) 30 1000
      ⟨some "a", some "970", some "sig", "GET", "/x", ""⟩ ≠
        AuthResult.reject 401 "Request timestamp out of allowed window"
    ∧ zagAuth triv (fun _ => none) 30 1000
      ⟨some "a", some "969", some "sig", "GET", "/x", ""⟩ =
        AuthResult.reject 401 "Request timestamp out of allowed window" := by
  constructor
  · exact (c5_replay_window_boundary triv (fun _ => none) 30 1000 "a" "970" "sig"
      "GET" "/x" "" (by decide) (by decide) (by decide) (by decide) 970
      (by decide)).2.1 (Or.inl (by decide))
  · exact (c5_replay_window_boundary triv (fun _ => none) 30 1000 "a" "969" "sig"
      "GET" "/x" "" (by decide) (by decide) (by decide) (by decide) 969
      (by decide)).2.2 (Or.inl (by decide))

/-- Counterexample to C6 as stated: the middleware has no distinct
bad-timestamp verdict — a present but unparseable timestamp header
(`"abc"`) produces exactly the same rejection (401, `Request timestamp
out of allowed window`) as an out-of-window timestamp (`"5000"` at
current time 1000 with drift 30). -/
theorem c6_counterexample :
    jsParseInt "abc" = none
    ∧ zagAuth triv (fun _ => none) 30 1000
        ⟨some "agent", some "abc", some "sig", "GET", "/x", ""⟩ =
        AuthResult.reject 401 "Request timestamp out of allowed window"
    ∧ zagAuth triv (fun _ => none) 30 1000
        ⟨some "agent", some "5000", some "sig", "GET", "/x", ""⟩ =
        AuthResult.reject 401 "Request timestamp out of allowed window" := by
  refine ⟨by decide, by decide, by decide⟩

/-- C6 amended: a present but unparseable timestamp header is rejected
at the combined timestamp check with status 401 and the same error
string `Request timestamp out of allowed window` as the replay-window
rejection; the code has a single `isNaN(requestTime) || drift >
maxTimestampDrift` branch and no distinct bad-timestamp reason. -/
theorem c6_bad_timestamp_merged (S : Ed25519)
    (store : String → Option AgentRegistration)
    (maxDrift now : Int) (a t s method path bodyText : String)
    (ha : a ≠ "") (hts : t ≠ "") (hs : s ≠ "")
    (hp : jsParseInt t = none) :
    zagAuth S store maxDrift now ⟨some a, some t, some s, method, path, bodyText⟩ =
      AuthResult.reject 401 "Request timestamp out of allowed window" := by
  rw [zagAuth_headers S store maxDrift now a t s method path bodyText ha hts hs]
  simp [hp]

/-- Witness for the amended C6. -/
theorem c6_witness :
    zagAuth triv (fun _ => none) 30 1000
      ⟨some "agent", some "not-a-number", some "sig", "POST", "/x", "b"⟩ =
      AuthResult.reject 401 "Request timestamp out of allowed window" :=
  c6_bad_timestamp_merged triv (fun _ => none) 30 1000 "agent" "not-a-number"
    "sig" "POST" "/x" "b" (by decide) (by decide) (by decide) (by decide)

/-- C7: a credential whose status differs from `active` is rejected
with 403 `Agent is not active`, for every scheme and every signature
header value — in particular a perfectly valid signature; the verdict
never consults the signature. -/
theorem c7_inactive_agent (S : Ed25519)
    (store : String → Option AgentRegistration)
    (maxDrift now : Int) (a t s method path bodyText : String)
    (ha : a ≠ "") (hts : t ≠ "") (hs : s ≠ "")
    (rt : Int) (hp : jsParseInt t = some rt) (hw : ¬(|now - rt| > maxDrift))
    (agent : AgentRegistration) (hag : store a = some agent)
    (hst : agent.status ≠ "active") :
    zagAuth S store maxDrift now ⟨some a, some t, some s, method, path, bodyText⟩ =
      AuthResult.reject 403 "Agent is not active" := by
  rw [zagAuth_after_timestamp S store maxDrift now a t s method path bodyText
    ha hts hs rt hp hw, hag]
  simp [hst]

/-- Witness for C7: a revoked credential whose key matches a genuinely
valid signature over the request is still rejected with 403. -/
theorem c7_witness :
    zagAuth toy (fun _ => some ⟨"a", exportPublicKey toy ((7 : Fin 256) : toy.PrivKey),
        none, "2024-01-01", "revoked"⟩) 30 1000
      ⟨some "a", some "1000",
        some (sign toy (buildSigningString "GET" "/x" "1000" none)
          ((7 : Fin 256) : toy.PrivKey)), "GET", "/x", ""⟩ =
      AuthResult.reject 403 "Agent is not active" :=
  c7_inactive_agent toy _ 30 1000 "a" "1000"
    (sign toy (buildSigningString "GET" "/x" "1000" none) ((7 : Fin 256) : toy.PrivKey))
    "GET" "/x" "" (by decide) (by decide) (by decide) 1000 (by decide) (by decide)
    ⟨"a", exportPublicKey toy ((7 : Fin 256) : toy.PrivKey), none, "2024-01-01", "revoked"⟩
    rfl (by decide)

/-- C9: `parseInt` keeps the leading-digit prefix of a malformed
timestamp header (`'1700000000abc'`, `'1700000000.9'`), and a request
whose prefix lies in the drift window is not rejected at the timestamp
stage: it proceeds to credential lookup (`Agent not found` when the
store has no such agent). -/
theorem c9_lenient_timestamp_parse (S : Ed25519)
    (store : String → Option AgentRegistration)
    (maxDrift now : Int) (a s method path bodyText : String)
    (ha : a ≠ "") (hs : s ≠ "") (t : String) (hts : t ≠ "")
    (rt : Int) (hp : jsParseInt t = some rt) (hw : ¬(|now - rt| > maxDrift)) :
    jsParseInt "1700000000abc" = some 1700000000
    ∧ jsParseInt "1700000000.9" = some 1700000000
    ∧ zagAuth S store maxDrift now ⟨some a, some t, some s, method, path, bodyText⟩ ≠
        AuthResult.reject 401 "Request timestamp out of allowed window"
    ∧ (store a = none →
        zagAuth S store maxDrift now ⟨some a, some t, some s, method, path, bodyText⟩ =
          AuthResult.reject 401 "Agent not found") := by
  refine ⟨by decide, by decide, ?_, fun hnone => ?_⟩
  · rw [zagAuth_after_timestamp S store maxDrift now a t s method path bodyText
      ha hts hs rt hp hw]
    rcases hstore : store a with _ | agent
    · simp
    · by_cases hact : agent.status ≠ "active"
      · simp [hact]
      · simp only [hact, if_false, Bool.false_eq_true]
        cases hv : verify S ⟨method, path, t,
            if method ≠ "GET" ∧ method ≠ "HEAD" then some bodyText else none, s,
            agent.public_key⟩ <;> simp [hv]
  · rw [zagAuth_after_timestamp S store maxDrift now a t s method path bodyText
      ha hts hs rt hp hw, hnone]

/-- Witness for C9: header `1700000000abc` at current time 1700000000
reaches the credential lookup and is answered `Agent not found`. -/
theorem c9_witness :
    zagAuth triv (fun _ => none) 30 1700000000
      ⟨some "a", some "1700000000abc", some "sig", "GET", "/x", ""⟩ =
      AuthResult.reject 401 "Agent not found" :=
  (c9_lenient_timestamp_parse triv (fun _ => none) 30 1700000000 "a" "sig" "GET" "/x" ""
    (by decide) (by decide) "1700000000abc" (by decide) 1700000000 (by decide)
    (by decide)).2.2.2 rfl

/-! ## Credential file paths.

`loadAgent` in `src/packages/auth/src/core.ts` and
`FileSystemStorage.getAgent` in
`src/packages/auth/src/storage/filesystem.ts` both compute
`join(directory, agentId + '.json')` with the caller-supplied agent
identifier spliced in verbatim.  Node's posix `path.join` concatenates
the parts with `/` and normalizes, resolving `.` and `..` segments —
modelled below at the character-list level. -/

def splitSlash : List Char → List (List Char)
  | [] => [[]]
  | '/' :: rest => [] :: splitSlash rest
  | c :: rest =>
      match splitSlash rest with
      | g :: gs => (c :: g) :: gs
      | [] => [[c]]

/-- Segment-stack normalization of Node `path.normalize`: drop empty
and `.` segments, make `..` pop the previous segment (kept at the front
of a relative path, dropped at the root of an absolute one). -/
def normLoop (isAbs : Bool) : List (List Char) → List (List Char) → List (List Char)
  | acc, [] => acc.reverse
  | acc, seg :: rest =>
      if seg = [] ∨ seg = ['.'] then normLoop isAbs acc rest
      else if seg = ['.', '.'] then
        match acc with
        | top :: acc2 =>
            if top = ['.', '.'] then normLoop isAbs (seg :: top :: acc2) rest
            else normLoop isAbs acc2 rest
        | [] => if isAbs then normLoop isAbs [] rest else normLoop isAbs [seg] rest
      else normLoop isAbs (seg :: acc) rest

def interSlash : List (List Char) → List Char
  | [] => []
  | [g] => g
  | g :: gs => g ++ '/' :: interSlash gs

/-- Node posix `path.join` for two non-empty parts. -/
def pathJoinL (a b : List Char) : List Char :=
  let joined := a ++ '/' :: b
  let isAbs := decide (joined.take 1 = ['/'])
  let core := interSlash (normLoop isAbs [] (splitSlash joined))
  if isAbs then '/' :: core else if core = [] then ['.'] else core

/-- The file path `loadAgent`/`getAgent` reads:
`join(keysDir, agentId + '.json')`. -/
def loadAgentPath (agentId keysDir : String) : String :=
  String.mk (pathJoinL keysDir.data (agentId.data ++ (".json" : String).data))

/-- C10: the agent identifier is spliced into the credential path with
no sanitization, so the identifier `../escape` makes `loadAgent` read
`/escape.json`, outside the configured keys directory `/keys` — while
an honest identifier stays inside it. -/
theorem c10_unsanitized_agent_path :
    loadAgentPath "../escape" "/keys" = "/escape.json"
    ∧ (loadAgentPath "../escape" "/keys").data.take 6 ≠ ("/keys/" : String).data
    ∧ loadAgentPath "bob" "/keys" = "/keys/bob.json"
    ∧ (loadAgentPath "bob" "/keys").data.take 6 = ("/keys/" : String).data := by
  refine ⟨by decide, by decide, by decide, by decide⟩

end Zag
